import Mathlib

/-!
# Verification of the Estate-Layout-Design land-subdivision engine

This file gives a shallow embedding of the core of the repository
(`server/geometry.py`, `server/subdivision.py`, `server/constraints.py`,
`server/layout_variations.py`) and settles the frozen claims about it.

Modelling choices, stated once here:

* Planar geometry is embedded as finite sets of unit grid cells
  (`Geo := Finset (ℤ × ℤ)`); a cell `(i, j)` stands for the axis-aligned
  square `[i·δ, (i+1)·δ) × [j·δ, (j+1)·δ)` for a rational cell side `δ`
  that is a parameter of every pipeline function.  Shapely's boolean
  operations (`intersection`, `difference`, `unary_union`) become the
  exact `Finset` operations, `.area` becomes `card · δ²`, and `buffer(0)`
  (the repository's topology-repair idiom) is the identity on this exact
  representation.  Positive/negative `buffer(r)` become Euclidean
  dilation/erosion of the cell set by radius `r/δ` cells.  Floating-point
  arithmetic of the source is idealised as exact rational arithmetic.
* The unseeded randomness of the source (`random.triangular`,
  `random.uniform`, the organic road synthesis of
  `subdivision.generate_parcels` lines 122–211) is made explicit as
  oracle inputs that the theorems quantify over: `Oracles.rawRoad` is the
  union of generated road polygons, roundabouts and existing roads
  produced at line 211, `Oracles.dims` is the stream of width/depth pairs
  sampled by `choose_parcel_dimensions` (widths are positive numbers of
  cells and depths positive multiples of ten cells, so that the source's
  `py += d * 0.7` step stays on the grid), `Oracles.dec` is shapely's
  decomposition of a (Multi)Polygon into its `.geoms` components, and
  `Oracles.frontageOf` is `.buffer(FRONTAGE_BUFFER)`, the 25-metre
  frontage dilation.  Properties of these oracles that shapely guarantees
  and a proof needs (components are pairwise disjoint and union back to
  the whole) appear as explicit hypotheses (`DecOK`).
* Python's `round(x, 2)` is modelled as exact half-even rounding to a
  multiple of 1/100 (`pyRound2`), and `int(x)` as truncation toward zero
  (`pyTrunc`).
-/

namespace EstateLayout

/-- A unit grid cell of the planar model. -/
abbrev Cell : Type := ℤ × ℤ

/-- A planar region: a finite set of unit grid cells. -/
abbrev Geo : Type := Finset Cell

/-- Area of a region in square metres, for cell side `δ` metres:
`card · δ²`.  Models shapely's `.area`. -/
def garea (δ : ℚ) (g : Geo) : ℚ := (g.card : ℚ) * δ ^ 2

/-- Union of a list of regions.  Models `shapely.ops.unary_union`. -/
def unionGeos (gs : List Geo) : Geo := gs.foldr (· ∪ ·) ∅

/-- The set of cells within Euclidean distance `r/δ` (in cell units) of
`c`: the disk a `buffer(r)` call reaches on a grid of cell side `δ`.
The distance test `dist² ≤ (r/δ)²` is cross-multiplied into pure integer
arithmetic (`n/d = r/δ` with `n = r.num·δ.den`, `d = r.den·δ.num`), and
the candidate box bound is `⌈|n|/|d|⌉ ≥ r/δ`. -/
def neighborhood (r δ : ℚ) (c : Cell) : Finset Cell :=
  let n : ℤ := r.num * (δ.den : ℤ)
  let d : ℤ := (r.den : ℤ) * δ.num
  let k : ℤ := ((n.natAbs + d.natAbs - 1) / d.natAbs : ℕ)
  ((Finset.Icc (c.1 - k) (c.1 + k)) ×ˢ (Finset.Icc (c.2 - k) (c.2 + k))).filter
    (fun c' =>
      ((c'.1 - c.1) * (c'.1 - c.1) + (c'.2 - c.2) * (c'.2 - c.2)) * (d * d) ≤ n * n)

/-- Euclidean dilation by radius `r/δ` cells.  Models a positive shapely
`buffer(r)` for cell side `δ`. -/
def dilate (g : Geo) (r δ : ℚ) : Geo := g.biUnion (neighborhood r δ)

/-- Euclidean erosion by radius `r/δ` cells.  Models a negative shapely
`buffer(-r)` for cell side `δ`. -/
def erode (g : Geo) (r δ : ℚ) : Geo := g.filter (fun c => neighborhood r δ c ⊆ g)

/-- Bounds `(minx, miny, maxx, maxy)` of a region in cell coordinates (the upper
bounds are exclusive cell edges).  Models shapely's `.bounds`; the source
never queries bounds of an empty geometry, `(0,0,0,0)` totalises that case. -/
def gbounds (g : Geo) : ℤ × ℤ × ℤ × ℤ :=
  if h : g.Nonempty then
    ((g.image Prod.fst).min' (h.image _), (g.image Prod.snd).min' (h.image _),
      (g.image Prod.fst).max' (h.image _) + 1, (g.image Prod.snd).max' (h.image _) + 1)
  else (0, 0, 0, 0)

/-- Axis-aligned rectangle of cells with corner `(px, py)`, width `w` and
depth `d` cells.  Models `shapely.geometry.box(px, py, px + w, py + d)`. -/
def pbox (px py : ℤ) (w d : ℕ) : Geo :=
  Finset.Ico px (px + w) ×ˢ Finset.Ico py (py + d)

/-- Round-half-even to the nearest integer, as Python's `round`. -/
def pyRoundInt (q : ℚ) : ℤ :=
  if q - ⌊q⌋ < 1 / 2 then ⌊q⌋
  else if 1 / 2 < q - ⌊q⌋ then ⌊q⌋ + 1
  else if 2 ∣ ⌊q⌋ then ⌊q⌋ else ⌊q⌋ + 1

/-- Python's `round(q, 2)`. -/
def pyRound2 (q : ℚ) : ℚ := (pyRoundInt (100 * q) : ℚ) / 100

/-- Python's `int(q)`: truncation toward zero. -/
def pyTrunc (q : ℚ) : ℤ := if q < 0 then -⌊-q⌋ else ⌊q⌋

/-! ## Chaikin corner-cutting (`subdivision.chaikin_smooth`, lines 11–35) -/

/-- A planar point, as used by the polyline smoother. -/
abbrev Pt : Type := ℚ × ℚ

/-- One pass of the inner `for i in range(len(coords) - 1)` loop of
`chaikin_smooth`: for each consecutive pair it appends the points at 25%
and 75% along the segment. -/
def chaikinPairs : List Pt → List Pt
  | p0 :: p1 :: rest =>
      (3 / 4 * p0.1 + 1 / 4 * p1.1, 3 / 4 * p0.2 + 1 / 4 * p1.2) ::
        (1 / 4 * p0.1 + 3 / 4 * p1.1, 1 / 4 * p0.2 + 3 / 4 * p1.2) ::
          chaikinPairs (p1 :: rest)
  | _ => []

/-- One iteration of `chaikin_smooth`'s outer loop:
`new_coords = [coords[0]] ++ pairs ++ [coords[-1]]`.  (The source only
runs it on lists of length ≥ 3; on `[]` this totalisation yields `[]`.) -/
def chaikinStep (coords : List Pt) : List Pt :=
  coords.head?.toList ++ chaikinPairs coords ++ coords.getLast?.toList

/-- Model of `subdivision.chaikin_smooth(coords, iterations)`: returns the input
unchanged when it has fewer than three points, otherwise applies
`chaikinStep` `iterations` times. -/
def chaikin_smooth (coords : List Pt) (iterations : ℕ) : List Pt :=
  if coords.length < 3 then coords else chaikinStep^[iterations] coords

/-! ## Data model (`constraints.py` and the raw constraints JSON) -/

/-- One entry of the parcel program
(`constraints.ParcelSizeTarget`). -/
structure ProgramEntry where
  size_group : String
  min_area : ℚ
  max_area : ℚ
  target_percent : ℚ
  deriving DecidableEq, Repr

/-- The raw per-project constraints JSON as read back from disk by
`geometry._load_constraints` / `subdivision.generate_parcels`; a key may
be absent (`none`), in which case each consumer supplies its own
`dict.get` fallback. -/
structure RawConstraints where
  setback_boundary_m : Option ℚ := none
  buffer_obstacle_m : Option ℚ := none
  main_road_width_m : Option ℚ := none
  local_road_width_m : Option ℚ := none
  min_green_ratio : Option ℚ := none
  parcel_program : Option (List ProgramEntry) := none
  deriving DecidableEq

/-- The pydantic `constraints.PlanningConstraints` model with its declared
field defaults (`min_green_ratio=0.10`, `setback_boundary_m=5.0`,
`buffer_obstacle_m=3.0`, `main_road_width_m=12.0`,
`local_road_width_m=8.0`). -/
structure PlanningConstraints where
  project_id : String
  min_green_ratio : ℚ := 1 / 10
  setback_boundary_m : ℚ := 5
  buffer_obstacle_m : ℚ := 3
  main_road_width_m : ℚ := 12
  local_road_width_m : ℚ := 8
  parcel_program : List ProgramEntry
  deriving DecidableEq

/-- One row of the GeoDataFrame loaded from the project's GeoJSON:
a feature type tag (`"boundary"`, `"obstacle"`, `"road"`, …) and its
geometry. -/
structure InFeature where
  ftype : String
  geom : Geo
  deriving DecidableEq

/-! ## Buildable-area deriver (`geometry.generate_buildable_area`) -/

/-- The gross site polygon: `unary_union(boundary_gdf.geometry)`
(`geometry.py` line 53). -/
def siteOf (gdf : List InFeature) : Geo :=
  unionGeos ((gdf.filter (fun f => f.ftype = "boundary")).map (·.geom))

/-- The dictionary returned by `generate_buildable_area` (geometry, the
two metrics, and the feature properties it reports). -/
structure BuildableResult where
  raw_geom : Geo
  gross_area_sqm : ℚ
  usable_area_sqm : ℚ
  boundary_setback_m : ℚ
  obstacle_buffer_m : ℚ
  deriving DecidableEq

/-- Model of `geometry.generate_buildable_area` (lines 29–107), for cell side `δ`:
boundary setback (inward erosion), obstacle buffer, road buffer, final
difference and zero-width-buffer cleanup (identity here).  Raises —
returns `.error` — exactly when the loaded feature set has no `boundary`
feature. -/
def generate_buildable_area (δ : ℚ) (gdf : List InFeature) (constraints : RawConstraints) :
    Except String BuildableResult :=
  let boundary_setback := constraints.setback_boundary_m.getD 5
  let obstacle_buffer := constraints.buffer_obstacle_m.getD 3
  let boundary_gdf := gdf.filter (fun f => f.ftype = "boundary")
  let obstacle_gdf := gdf.filter (fun f => f.ftype = "obstacle")
  let road_gdf := gdf.filter (fun f => f.ftype = "road")
  if boundary_gdf.isEmpty then
    .error "DXF must contain a boundary polygon"
  else
    let site0 := unionGeos (boundary_gdf.map (·.geom))
    let gross_area := garea δ site0
    let site_geom := if boundary_setback > 0 then erode site0 boundary_setback δ else site0
    let subtract_geoms :=
      (if ¬ obstacle_gdf.isEmpty then
          [(fun obs => if obstacle_buffer > 0 then dilate obs obstacle_buffer δ else obs)
              (unionGeos (obstacle_gdf.map (·.geom)))]
        else []) ++
      (if ¬ road_gdf.isEmpty then
          [dilate (unionGeos (road_gdf.map (·.geom))) obstacle_buffer δ]
        else [])
    let buildable_geom :=
      if ¬ subtract_geoms.isEmpty then site_geom \ unionGeos subtract_geoms else site_geom
    .ok { raw_geom := buildable_geom
          gross_area_sqm := gross_area
          usable_area_sqm := garea δ buildable_geom
          boundary_setback_m := boundary_setback
          obstacle_buffer_m := obstacle_buffer }

/-! ## Road/parcel generation (`subdivision.generate_parcels`) -/

/-- The `road_config` dictionary a variation passes to
`generate_parcels` (`road_spacing_config` in `layout_variations.py`);
keys looked up by `generate_parcels` with their own fallbacks. -/
structure RoadConfig where
  main_road_width : Option ℚ := none
  local_road_width : Option ℚ := none
  vertical_spacing : Option ℚ := none
  deriving DecidableEq

/-- Model of `subdivision.generate_parcels` lines 107–115: the
`(main_road_width, local_road_width, avg_spacing)` triple.  With a
truthy `road_config` the fallbacks are `18.0`, `12.0`, `150`; without
one they are `constraints.get("main_road_width_m", 20.0)`,
`constraints.get("local_road_width_m", 10.0)` and `150`. -/
def roadWidths (road_config : Option RoadConfig) (constraints : RawConstraints) : ℚ × ℚ × ℚ :=
  match road_config with
  | some rc => (rc.main_road_width.getD 18, rc.local_road_width.getD 12,
      rc.vertical_spacing.getD 150)
  | none => (constraints.main_road_width_m.getD 20, constraints.local_road_width_m.getD 10, 150)

/-- An output feature record `{geometry, properties}`.  `ftype` is
`properties["type"]` (`"road"`, `"parcel"` or `"green"`); the optional
fields are the properties only some types carry. -/
structure Feature where
  ftype : String
  geom : Geo
  size_group : Option String := none
  road_type : Option String := none
  area_sqm : ℚ
  deriving DecidableEq

/-- The nondeterministic/continuous inputs of one `generate_parcels`
run, made explicit (see the header comment):
`rawRoad` is the union of organically generated roads, roundabouts and
existing roads built by lines 122–211; `dims` the stream of
`choose_parcel_dimensions` samples in cells (width `a+1` cells, depth
`10·(b+1)` cells for sample `(a, b)`); `dec` shapely's decomposition of a
geometry into its `.geoms` list; `frontageOf` the 25-metre
`buffer(FRONTAGE_BUFFER)` dilation. -/
structure Oracles where
  rawRoad : Geo
  dims : ℕ → ℕ × ℕ
  dec : Geo → List Geo
  frontageOf : Geo → Geo

/-- The shapely guarantees about `.geoms` decomposition that proofs use:
the components are pairwise disjoint and union back to the decomposed
geometry. -/
def DecOK (dec : Geo → List Geo) : Prop :=
  ∀ g : Geo, (dec g).foldr (· ∪ ·) ∅ = g ∧ (dec g).Pairwise (fun a b => Disjoint a b)

/-- Line 214: the clipped road network
`raw_road_network.intersection(buildable_geom).buffer(0)`. -/
def fullRoadNetwork (buildable raw : Geo) : Geo := raw ∩ buildable

/-- Line 215: `remaining_land = buildable_geom.difference(full_road_network)`. -/
def remainingLand0 (buildable raw : Geo) : Geo := buildable \ fullRoadNetwork buildable raw

/-- Lines 229–248: one road component's feature, or `none` when its area
is below the 10 sq.m noise threshold.  Classification `main`/`local` by
bounding-box extent against `avg_spacing * 1.5`. -/
def mkRoadFeature (δ avg_spacing : ℚ) (r : Geo) : Option Feature :=
  if garea δ r < 10 then none
  else
    let b := gbounds r
    let extent := (max (b.2.2.1 - b.1) (b.2.2.2 - b.2.1) : ℚ) * δ
    some { ftype := "road", geom := r,
           road_type := some (if extent > avg_spacing * (3 / 2) then "main" else "local"),
           area_sqm := pyRound2 (garea δ r) }

/-- Lines 317–325: an accepted parcel's feature. -/
def mkParcel (δ : ℚ) (sgroup : String) (plot : Geo) : Feature :=
  { ftype := "parcel", geom := plot, size_group := some sgroup,
    area_sqm := pyRound2 (garea δ plot) }

/-- Lines 338–346: the residual-land green feature. -/
def mkGreen (δ : ℚ) (g : Geo) : Feature :=
  { ftype := "green", geom := g, area_sqm := pyRound2 (garea δ g) }

/-- A parcel-program entry together with its computed target count
(lines 261–265; `allocated_count` is threaded through the loops). -/
structure Target where
  entry : ProgramEntry
  target_count : ℕ
  deriving DecidableEq

/-- Lines 255–265: per program entry,
`target_count = max(1, int(total_buildable_area * target_percent / avg_area))`
with `avg_area = (min_area + max_area) / 2`. -/
def computeTargets (total_buildable_area : ℚ) (program : List ProgramEntry) : List Target :=
  program.map fun p =>
    { entry := p
      target_count :=
        (max 1 (pyTrunc (total_buildable_area * p.target_percent /
          ((p.min_area + p.max_area) / 2)))).toNat }

/-- The mutable state of the allocation loops: emitted parcel features,
`remaining_land`, and the position in the dimension-sample stream. -/
structure PState where
  parcels : List Feature
  remaining : Geo
  t : ℕ

/-- The fixed data of one size-group allocation pass. -/
structure GroupCtx where
  δ : ℚ
  frontBuf : Geo
  dims : ℕ → ℕ × ℕ
  minA : ℚ
  maxA : ℚ
  sgroup : String
  target : ℕ

/-- Lines 292–331, the inner `while py < bmaxy` scan at fixed `px`.
Returns the state, the (mutated) block, the allocated count and the last
sampled width (Python's `w` variable, which outlives the loop).  `fuel`
bounds the iteration count; since every step advances `py` by at least 7
cells, `(bmaxy - py).toNat + 1` fuel is enough for the real control flow
and adding more fuel never changes the result. -/
def pyLoop (C : GroupCtx) (px bmaxy : ℤ) :
    ℕ → ℤ → Geo → ℕ → ℕ → PState → PState × Geo × ℕ × ℕ
  | 0, _, block, alloc, wlast, st => (st, block, alloc, wlast)
  | fuel + 1, py, block, alloc, wlast, st =>
    if py < bmaxy then
      if C.target ≤ alloc then (st, block, alloc, wlast)
      else
        let s := C.dims st.t
        let w := s.1 + 1
        let d := 10 * (s.2 + 1)
        let st1 : PState := { st with t := st.t + 1 }
        let plot := pbox px py w d
        if ¬ plot ⊆ block then
          pyLoop C px bmaxy fuel (py + 7 * (s.2 + 1)) block alloc w st1
        else if (plot ∩ C.frontBuf) = ∅ then
          pyLoop C px bmaxy fuel (py + d) block alloc w st1
        else if ¬ (C.minA ≤ garea C.δ plot ∧ garea C.δ plot ≤ C.maxA) then
          pyLoop C px bmaxy fuel (py + d) block alloc w st1
        else
          pyLoop C px bmaxy fuel (py + d) (block \ plot) (alloc + 1) w
            { parcels := st1.parcels ++ [mkParcel C.δ C.sgroup plot],
              remaining := st1.remaining \ plot, t := st1.t }
    else (st, block, alloc, wlast)

/-- Lines 289–333, the outer `while px < bmaxx` scan over one block;
`px` advances by the last width sampled inside the inner loop. -/
def pxLoop (C : GroupCtx) (bminy bmaxx bmaxy : ℤ) :
    ℕ → ℤ → Geo → ℕ → ℕ → PState → PState × Geo × ℕ
  | 0, _, block, alloc, _, st => (st, block, alloc)
  | fuel + 1, px, block, alloc, wlast, st =>
    if px < bmaxx then
      let r := pyLoop C px bmaxy ((bmaxy - bminy).toNat + 1) bminy block alloc wlast st
      pxLoop C bminy bmaxx bmaxy fuel (px + r.2.2.2) r.2.1 r.2.2.1 r.2.2.2 r.1
    else (st, block, alloc)

/-- Lines 282–333, the `for block in blocks` loop of one size group. -/
def blocksLoop (C : GroupCtx) : List Geo → ℕ → PState → PState × ℕ
  | [], alloc, st => (st, alloc)
  | bl :: rest, alloc, st =>
    if C.target ≤ alloc then (st, alloc)
    else
      let b := gbounds bl
      let r := pxLoop C b.2.1 b.2.2.1 b.2.2.2 ((b.2.2.1 - b.1).toNat + 1) b.1 bl alloc 1 st
      blocksLoop C rest r.2.2 r.1

/-- The `GroupCtx` built for one target entry by `groupsLoop`. -/
def groupCtx (δ : ℚ) (frontBuf : Geo) (dims : ℕ → ℕ × ℕ) (tgt : Target) : GroupCtx :=
  { δ := δ, frontBuf := frontBuf, dims := dims, minA := tgt.entry.min_area,
    maxA := tgt.entry.max_area, sgroup := tgt.entry.size_group, target := tgt.target_count }

/-- Lines 270–333, the `for program in parcel_targets` loop: each group
recomputes the block decomposition of the current `remaining_land` and
starts with `allocated_count = 0`. -/
def groupsLoop (δ : ℚ) (frontBuf : Geo) (dims : ℕ → ℕ × ℕ) (dec : Geo → List Geo) :
    List Target → PState → PState
  | [], st => st
  | tgt :: rest, st =>
    groupsLoop δ frontBuf dims dec rest
      (blocksLoop (groupCtx δ frontBuf dims tgt) (dec st.remaining) 0 st).1
/-- The properties every parcel accepted during one size-group pass has
(lines 298–325): `type = "parcel"`, the group's name, exact area inside
the group's `[min_area, max_area]`, and `area_sqm` equal to the exact
area rounded to two decimals. -/
def GroupParcel (C : GroupCtx) (f : Feature) : Prop :=
  f.ftype = "parcel" ∧ f.size_group = some C.sgroup ∧ f.road_type = none ∧
    C.minA ≤ garea C.δ f.geom ∧ garea C.δ f.geom ≤ C.maxA ∧
    f.area_sqm = pyRound2 (garea C.δ f.geom)

/-- The relation between an emitted parcel feature and the program entry
it was allocated for. -/
def ParcelOf (δ : ℚ) (p : ProgramEntry) (f : Feature) : Prop :=
  f.ftype = "parcel" ∧ f.size_group = some p.size_group ∧
    p.min_area ≤ garea δ f.geom ∧ garea δ f.geom ≤ p.max_area ∧
    f.area_sqm = pyRound2 (garea δ f.geom)


/-- Model of `subdivision.generate_parcels` (lines 90–348) for cell side `δ`.
`constraints` is the loaded constraints JSON, `road_config` the optional
per-variation dictionary, `buildable_geom` the possibly-absent buildable
geometry, and `O` the explicit oracles (header comment).  Emits road
features, then parcel features, then the green residual. -/
def generate_parcels (δ : ℚ) (constraints : RawConstraints) (road_config : Option RoadConfig)
    (buildable_geom : Option Geo) (O : Oracles) : List Feature :=
  match buildable_geom with
  | none => []
  | some bg =>
    if bg = ∅ then []
    else
      let parcel_program := constraints.parcel_program.getD []
      let wcfg := roadWidths road_config constraints
      let avg_spacing := wcfg.2.2
      let full_road := fullRoadNetwork bg O.rawRoad
      let remaining0 := remainingLand0 bg O.rawRoad
      if remaining0 = ∅ then []
      else
        let roadFeats := (O.dec full_road).filterMap (mkRoadFeature δ avg_spacing)
        let targets := computeTargets (garea δ remaining0) parcel_program
        let st := groupsLoop δ (O.frontageOf full_road) O.dims O.dec targets
          { parcels := [], remaining := remaining0, t := 0 }
        roadFeats ++ st.parcels ++
          (if st.remaining = ∅ then [] else [mkGreen δ st.remaining])

/-! ## Variation orchestrator (`layout_variations.LayoutVariationGenerator`) -/

/-- One `road_spacing_config` dictionary of `layout_variations.py`. -/
structure VariationConfig where
  main_road_width : ℚ
  local_road_width : ℚ
  vertical_spacing : ℚ
  horizontal_spacing : ℚ
  deriving DecidableEq

/-- The `High_Density` road config (lines 30–35). -/
def highDensityConfig : VariationConfig :=
  { main_road_width := 15, local_road_width := 17 / 2,
    vertical_spacing := 160, horizontal_spacing := 120 }

/-- The `Balanced` road config (lines 53–58). -/
def balancedConfig : VariationConfig :=
  { main_road_width := 18, local_road_width := 10,
    vertical_spacing := 220, horizontal_spacing := 160 }

/-- The `Premium` road config (lines 77–82). -/
def premiumConfig : VariationConfig :=
  { main_road_width := 20, local_road_width := 13,
    vertical_spacing := 290, horizontal_spacing := 220 }

/-- A variation record as returned by `_generate_variation`: on success,
`status = "success"` with the generated payload (buildable/road/parcels/
metrics/KPIs, abstracted as `α`) and the parcel mix; on an exception,
`status = "error"` with the message and no payload. -/
structure VariationRecord (α : Type) where
  name : String
  description : String
  optimization_type : String
  parcel_mix : Option (List (String × ℚ))
  config : VariationConfig
  payload : Option α
  status : String
  error : Option String

/-- Model of `LayoutVariationGenerator._generate_variation` (lines 97–159): runs
the Deriver→Synthesizer→Allocator→Aggregator body — abstracted as
`pipeline`, which may raise — inside `try/except`, producing a success
record or an error record for this variation alone. -/
def generateVariation {α : Type} (pipeline : VariationConfig → Except String α)
    (name description optimization_type : String) (cfg : VariationConfig)
    (mix : List (String × ℚ)) : VariationRecord α :=
  match pipeline cfg with
  | .ok p =>
      { name := name, description := description,
        optimization_type := optimization_type, parcel_mix := some mix,
        config := cfg, payload := some p, status := "success", error := none }
  | .error e =>
      { name := name, description := description,
        optimization_type := optimization_type, parcel_mix := none,
        config := cfg, payload := none, status := "error", error := some e }

/-- Model of `LayoutVariationGenerator.generate_all_variations` (lines 15–23):
the three named variations, in order, each generated independently. -/
def generate_all_variations {α : Type} (pipeline : VariationConfig → Except String α) :
    List (VariationRecord α) :=
  [generateVariation pipeline "High_Density"
      "Maximum plots • Tight spacing • 40-80 sq.m parcels • Best for high-volume sales"
      "density" highDensityConfig
      [("micro", 1 / 2), ("small", 7 / 20), ("medium", 3 / 20)],
    generateVariation pipeline "Balanced"
      "Optimal mix • Standard spacing • 80-150 sq.m parcels • Best for balanced returns"
      "balanced" balancedConfig
      [("small", 7 / 20), ("medium", 9 / 20), ("large", 1 / 5)],
    generateVariation pipeline "Premium"
      "Prestige parcels • Wide roads • 120-250 sq.m parcels • Best for premium positioning"
      "premium" premiumConfig
      [("medium", 7 / 20), ("large", 1 / 2), ("xlarge", 3 / 20)]]

/-- The status string a variation record carries as a function of its
pipeline outcome: `"success"` for a normal return, `"error"` for a caught
exception. -/
def statusOf {α : Type} (r : Except String α) : String :=
  match r with
  | .ok _ => "success"
  | .error _ => "error"

/-! ## Concrete inputs used by witnesses and counterexamples -/

/-- Singleton decomposition: what shapely's
`list(g.geoms) if MultiPolygon else [g]` idiom yields for a connected
geometry. -/
def decSingle : Geo → List Geo := fun g => [g]

/-- With δ = 1: a 3×4-cell (12 sqm) buildable area. -/
def bgPartition : Geo := pbox 0 0 3 4

/-- Oracles whose raw road network covers a 3×3-cell (9 sqm) corner of
`bgPartition` — a single clipped road component below the 10 sqm noise
threshold. -/
def oraclesPartition : Oracles :=
  { rawRoad := pbox 0 0 3 3, dims := fun _ => (0, 0), dec := decSingle,
    frontageOf := fun g => g }

/-- A constraints file with an empty parcel program. -/
def consEmptyProgram : RawConstraints := { parcel_program := some [] }

/-- A size-group entry with sub-centisimal bounds:
`min_area = 0.004`, `max_area = 0.006` sqm. -/
def entryMicro : ProgramEntry :=
  { size_group := "Micro", min_area := 1 / 250, max_area := 3 / 500,
    target_percent := 1 }

/-- A constraints file whose program is the single `entryMicro` group. -/
def consMicro : RawConstraints := { parcel_program := some [entryMicro] }

/-- The cell side of the fine-grained runs: 1/50 m (cell area 1/2500 sqm). -/
def deltaMicro : ℚ := 1 / 50

/-- With δ = 1/50 m (cell area 1/2500 sqm): a 1×20-cell buildable strip. -/
def bgMicro : Geo := pbox 0 0 1 20

/-- Oracles for the `bgMicro` run: the raw road covers the upper half of
the strip, the dimension stream always samples a 1×10-cell plot, and the
frontage buffer is a one-cell dilation (the source's 25 m buffer dilates
by 1250 of these 2 cm cells; one cell is already enough to make the
frontage test pass here). -/
def oraclesMicro : Oracles :=
  { rawRoad := pbox 0 10 1 10, dims := fun _ => (0, 0), dec := decSingle,
    frontageOf := fun g => dilate g 1 1 }

/-- An all-obstacle site: the obstacle coincides with the boundary. -/
def gdfAllObstacle : List InFeature :=
  [{ ftype := "boundary", geom := pbox 0 0 2 2 },
    { ftype := "obstacle", geom := pbox 0 0 2 2 }]

/-- Constraints for the all-obstacle site: no setback, a 1 m obstacle
buffer, empty program. -/
def consAllObstacle : RawConstraints :=
  { setback_boundary_m := some 0, buffer_obstacle_m := some 1,
    parcel_program := some [] }

/-- A minimal valid site: a single one-cell boundary polygon. -/
def gdfOneCell : List InFeature := [{ ftype := "boundary", geom := pbox 0 0 1 1 }]

/-- What `generate_buildable_area 1 gdfOneCell {}` returns: the default
5 m setback erodes the one-cell site to nothing. -/
def resOneCell : BuildableResult :=
  { raw_geom := ∅, gross_area_sqm := 1, usable_area_sqm := 0,
    boundary_setback_m := 5, obstacle_buffer_m := 3 }

/-! ## Proof infrastructure: sequential carving of a region -/

/-- Relation `Carved r gs r'` says region `r'` is obtained from `r` by removing
the regions of `gs` one after the other, each contained in what was left
when it was removed — exactly the shape of the allocator's
`remaining_land = remaining_land.difference(plot)` updates. -/
inductive Carved : Geo → List Geo → Geo → Prop
  | nil (r : Geo) : Carved r [] r
  | cons {r r' : Geo} {gs : List Geo} (p : Geo) (hp : p ⊆ r)
      (h : Carved (r \ p) gs r') : Carved r (p :: gs) r'

theorem Carved.append {r₀ r₁ r₂ : Geo} {gs hs : List Geo}
    (h₁ : Carved r₀ gs r₁) (h₂ : Carved r₁ hs r₂) : Carved r₀ (gs ++ hs) r₂ := by
  induction h₁ with
  | nil r => simpa using h₂
  | cons p hp h ih => exact Carved.cons p hp (ih h₂)

theorem Carved.eq_sdiff {r r' : Geo} {gs : List Geo} (h : Carved r gs r') :
    r' = r \ gs.foldr (· ∪ ·) ∅ := by
  induction h with
  | nil r => simp
  | cons p hp h ih =>
      rw [ih]
      ext c
      simp only [Finset.mem_sdiff, List.foldr_cons, Finset.mem_union]
      tauto

theorem Carved.subset {r r' : Geo} {gs : List Geo} (h : Carved r gs r') : r' ⊆ r := by
  rw [h.eq_sdiff]; exact Finset.sdiff_subset

theorem Carved.mem_subset {r r' : Geo} {gs : List Geo} (h : Carved r gs r') :
    ∀ g ∈ gs, g ⊆ r := by
  induction h with
  | nil r => simp
  | cons p hp h ih =>
      intro g hg
      rcases List.mem_cons.mp hg with rfl | hg
      · exact hp
      · exact (ih g hg).trans Finset.sdiff_subset

theorem Carved.disjoint_result {r r' : Geo} {gs : List Geo} (h : Carved r gs r') :
    ∀ g ∈ gs, Disjoint g r' := by
  induction h with
  | nil r => simp
  | cons p hp h ih =>
      intro g hg
      rcases List.mem_cons.mp hg with rfl | hg
      · exact Finset.disjoint_sdiff.mono_right h.subset
      · exact ih g hg

theorem Carved.pairwise {r r' : Geo} {gs : List Geo} (h : Carved r gs r') :
    gs.Pairwise (fun a b => Disjoint a b) := by
  induction h with
  | nil r => simp
  | cons p hp h ih =>
      refine List.Pairwise.cons (fun g hg => ?_) ih
      exact Finset.disjoint_sdiff.mono_right (h.mem_subset g hg)

theorem Carved.card {r r' : Geo} {gs : List Geo} (h : Carved r gs r') :
    r.card = (gs.map Finset.card).sum + r'.card := by
  induction h with
  | nil r => simp
  | cons p hp h ih =>
      have h1 := Finset.card_sdiff hp
      have h2 := Finset.card_le_card hp
      simp only [List.map_cons, List.sum_cons]
      omega

theorem subset_foldr_union {l : List Geo} {x : Geo} (hx : x ∈ l) :
    x ⊆ l.foldr (· ∪ ·) ∅ := by
  induction l with
  | nil => cases hx
  | cons a l ih =>
      rcases List.mem_cons.mp hx with rfl | hx
      · exact Finset.subset_union_left
      · exact (ih hx).trans Finset.subset_union_right

theorem disjoint_foldr_union {b : Geo} {l : List Geo} (h : ∀ x ∈ l, Disjoint b x) :
    Disjoint b (l.foldr (· ∪ ·) ∅) := by
  induction l with
  | nil => simp
  | cons a l ih =>
      simp only [List.foldr_cons, Finset.disjoint_union_right]
      exact ⟨h a (List.mem_cons_self a l), ih fun x hx => h x (List.mem_cons_of_mem a hx)⟩

theorem garea_foldr_union (δ : ℚ) {l : List Geo}
    (h : l.Pairwise (fun a b => Disjoint a b)) :
    garea δ (l.foldr (· ∪ ·) ∅) = (l.map (garea δ)).sum := by
  induction l with
  | nil => simp [garea]
  | cons a l ih =>
      rcases List.pairwise_cons.mp h with ⟨ha, hl⟩
      have hd : Disjoint a (l.foldr (· ∪ ·) ∅) := disjoint_foldr_union ha
      simp only [List.foldr_cons, List.map_cons, List.sum_cons, ← ih hl, garea,
        Finset.card_union_of_disjoint hd]
      push_cast
      ring

theorem Carved.garea_eq (δ : ℚ) {r r' : Geo} {gs : List Geo} (h : Carved r gs r') :
    garea δ r = (gs.map (garea δ)).sum + garea δ r' := by
  induction h with
  | nil r => simp
  | @cons r r' gs p hp h ih =>
      have hcard : r.card = p.card + (r \ p).card := by
        have h1 := Finset.card_sdiff hp
        have h2 := Finset.card_le_card hp
        omega
      have hsplit : garea δ r = garea δ p + garea δ (r \ p) := by
        simp only [garea, hcard]
        push_cast
        ring
      simp only [List.map_cons, List.sum_cons]
      rw [hsplit, ih]
      ring

theorem pyLoop_spec (C : GroupCtx) (px bmaxy : ℤ) :
    ∀ (fuel : ℕ) (py : ℤ) (block : Geo) (alloc wlast : ℕ) (st : PState),
    block ⊆ st.remaining →
    ∃ new : List Feature,
      (pyLoop C px bmaxy fuel py block alloc wlast st).1.parcels = st.parcels ++ new ∧
      Carved st.remaining (new.map (fun f => f.geom))
        (pyLoop C px bmaxy fuel py block alloc wlast st).1.remaining ∧
      Carved block (new.map (fun f => f.geom))
        (pyLoop C px bmaxy fuel py block alloc wlast st).2.1 ∧
      (pyLoop C px bmaxy fuel py block alloc wlast st).2.1 ⊆
        (pyLoop C px bmaxy fuel py block alloc wlast st).1.remaining ∧
      ∀ f ∈ new, GroupParcel C f := by
  intro fuel
  induction fuel with
  | zero =>
      intro py block alloc wlast st hbs
      exact ⟨[], by simp [pyLoop], Carved.nil _, Carved.nil _, hbs, by simp⟩
  | succ fuel ih =>
      intro py block alloc wlast st hbs
      by_cases hpy : py < bmaxy
      · by_cases halloc : C.target ≤ alloc
        · refine ⟨[], ?_, ?_, ?_, ?_, by simp⟩ <;>
            simp only [pyLoop, if_pos hpy, if_pos halloc]
          · simp
          · exact Carved.nil _
          · exact Carved.nil _
          · exact hbs
        · set s := C.dims st.t with hs
          set plot := pbox px py (s.1 + 1) (10 * (s.2 + 1)) with hplot
          by_cases hwithin : plot ⊆ block
          · by_cases hfront : (plot ∩ C.frontBuf) = ∅
            · -- frontage rejection: advance by d
              have hstep : pyLoop C px bmaxy (fuel + 1) py block alloc wlast st =
                  pyLoop C px bmaxy fuel (py + 10 * (s.2 + 1)) block alloc (s.1 + 1)
                    { st with t := st.t + 1 } := by
                simp only [pyLoop, if_pos hpy, if_neg halloc, ← hs, ← hplot,
                  if_neg (not_not_intro hwithin), if_pos hfront]
                norm_cast
              rw [hstep]
              exact ih _ block alloc _ _ hbs
            · by_cases harea : C.minA ≤ garea C.δ plot ∧ garea C.δ plot ≤ C.maxA
              · -- acceptance
                have hstep : pyLoop C px bmaxy (fuel + 1) py block alloc wlast st =
                    pyLoop C px bmaxy fuel (py + 10 * (s.2 + 1)) (block \ plot) (alloc + 1)
                      (s.1 + 1)
                      { parcels := st.parcels ++ [mkParcel C.δ C.sgroup plot],
                        remaining := st.remaining \ plot, t := st.t + 1 } := by
                  simp only [pyLoop, if_pos hpy, if_neg halloc, ← hs, ← hplot,
                    if_neg (not_not_intro hwithin), if_neg hfront,
                    if_neg (not_not_intro harea)]
                  norm_cast
                rw [hstep]
                have hbs' : block \ plot ⊆ st.remaining \ plot :=
                  Finset.sdiff_subset_sdiff hbs (Finset.Subset.refl _)
                obtain ⟨new, h1, h2, h3, h4, h5⟩ :=
                  ih (py + 10 * (s.2 + 1)) (block \ plot) (alloc + 1) (s.1 + 1)
                    { parcels := st.parcels ++ [mkParcel C.δ C.sgroup plot],
                      remaining := st.remaining \ plot, t := st.t + 1 } hbs'
                refine ⟨mkParcel C.δ C.sgroup plot :: new, ?_, ?_, ?_, h4, ?_⟩
                · simpa using h1
                · exact Carved.cons plot (hwithin.trans hbs) (by simpa [mkParcel] using h2)
                · exact Carved.cons plot hwithin (by simpa [mkParcel] using h3)
                · intro f hf
                  rcases List.mem_cons.mp hf with rfl | hf
                  · exact ⟨rfl, rfl, rfl, harea.1, harea.2, rfl⟩
                  · exact h5 f hf
              · -- size rejection: advance by d
                have hstep : pyLoop C px bmaxy (fuel + 1) py block alloc wlast st =
                    pyLoop C px bmaxy fuel (py + 10 * (s.2 + 1)) block alloc (s.1 + 1)
                      { st with t := st.t + 1 } := by
                  simp only [pyLoop, if_pos hpy, if_neg halloc, ← hs, ← hplot,
                    if_neg (not_not_intro hwithin), if_neg hfront, if_pos harea]
                  norm_cast
                rw [hstep]
                exact ih _ block alloc _ _ hbs
          · -- containment rejection: advance by 0.7·d
            have hstep : pyLoop C px bmaxy (fuel + 1) py block alloc wlast st =
                pyLoop C px bmaxy fuel (py + 7 * (s.2 + 1)) block alloc (s.1 + 1)
                  { st with t := st.t + 1 } := by
              simp only [pyLoop, if_pos hpy, if_neg halloc, ← hs, ← hplot, if_pos hwithin]
            rw [hstep]
            exact ih _ block alloc _ _ hbs
      · refine ⟨[], ?_, ?_, ?_, ?_, by simp⟩ <;>
          simp only [pyLoop, if_neg hpy]
        · simp
        · exact Carved.nil _
        · exact Carved.nil _
        · exact hbs

theorem pxLoop_spec (C : GroupCtx) (bminy bmaxx bmaxy : ℤ) :
    ∀ (fuel : ℕ) (px : ℤ) (block : Geo) (alloc wlast : ℕ) (st : PState),
    block ⊆ st.remaining →
    ∃ new : List Feature,
      (pxLoop C bminy bmaxx bmaxy fuel px block alloc wlast st).1.parcels =
        st.parcels ++ new ∧
      Carved st.remaining (new.map (fun f => f.geom))
        (pxLoop C bminy bmaxx bmaxy fuel px block alloc wlast st).1.remaining ∧
      Carved block (new.map (fun f => f.geom))
        (pxLoop C bminy bmaxx bmaxy fuel px block alloc wlast st).2.1 ∧
      ∀ f ∈ new, GroupParcel C f := by
  intro fuel
  induction fuel with
  | zero =>
      intro px block alloc wlast st hbs
      exact ⟨[], by simp [pxLoop], Carved.nil _, Carved.nil _, by simp⟩
  | succ fuel ih =>
      intro px block alloc wlast st hbs
      by_cases hpx : px < bmaxx
      · have hstep : pxLoop C bminy bmaxx bmaxy (fuel + 1) px block alloc wlast st =
            (fun r => pxLoop C bminy bmaxx bmaxy fuel (px + r.2.2.2) r.2.1 r.2.2.1 r.2.2.2 r.1)
              (pyLoop C px bmaxy ((bmaxy - bminy).toNat + 1) bminy block alloc wlast st) := by
          simp only [pxLoop, if_pos hpx]
        obtain ⟨n1, i1, i2, i3, i4, i5⟩ :=
          pyLoop_spec C px bmaxy ((bmaxy - bminy).toNat + 1) bminy block alloc wlast st hbs
        set r := pyLoop C px bmaxy ((bmaxy - bminy).toNat + 1) bminy block alloc wlast st
          with hr
        obtain ⟨n2, j1, j2, j3, j4⟩ := ih (px + r.2.2.2) r.2.1 r.2.2.1 r.2.2.2 r.1 i4
        refine ⟨n1 ++ n2, ?_, ?_, ?_, ?_⟩
        · rw [hstep, j1, i1, List.append_assoc]
        · rw [hstep]
          exact (List.map_append _ n1 n2) ▸ Carved.append i2 j2
        · rw [hstep]
          exact (List.map_append _ n1 n2) ▸ Carved.append i3 j3
        · intro f hf
          rcases List.mem_append.mp hf with hf | hf
          · exact i5 f hf
          · exact j4 f hf
      · refine ⟨[], ?_, ?_, ?_, by simp⟩ <;> simp only [pxLoop, if_neg hpx]
        · simp
        · exact Carved.nil _
        · exact Carved.nil _

theorem blocksLoop_spec (C : GroupCtx) :
    ∀ (blocks : List Geo) (alloc : ℕ) (st : PState),
    (∀ b ∈ blocks, b ⊆ st.remaining) →
    blocks.Pairwise (fun a b => Disjoint a b) →
    ∃ new : List Feature,
      (blocksLoop C blocks alloc st).1.parcels = st.parcels ++ new ∧
      Carved st.remaining (new.map (fun f => f.geom))
        (blocksLoop C blocks alloc st).1.remaining ∧
      ∀ f ∈ new, GroupParcel C f := by
  intro blocks
  induction blocks with
  | nil =>
      intro alloc st _ _
      exact ⟨[], by simp [blocksLoop], Carved.nil _, by simp⟩
  | cons bl rest ih =>
      intro alloc st hsub hdisj
      by_cases htgt : C.target ≤ alloc
      · refine ⟨[], ?_, ?_, by simp⟩ <;> simp only [blocksLoop, if_pos htgt]
        · simp
        · exact Carved.nil _
      · have hstep : blocksLoop C (bl :: rest) alloc st =
            (fun r => blocksLoop C rest r.2.2 r.1)
              ((fun b =>
                pxLoop C b.2.1 b.2.2.1 b.2.2.2 ((b.2.2.1 - b.1).toNat + 1) b.1 bl alloc 1 st)
                (gbounds bl)) := by
          simp only [blocksLoop, if_neg htgt]
        set b := gbounds bl with hb
        obtain ⟨n1, i1, i2, i3, i4⟩ :=
          pxLoop_spec C b.2.1 b.2.2.1 b.2.2.2 ((b.2.2.1 - b.1).toNat + 1) b.1 bl alloc 1 st
            (hsub bl (List.mem_cons_self bl rest))
        set r := pxLoop C b.2.1 b.2.2.1 b.2.2.2 ((b.2.2.1 - b.1).toNat + 1) b.1 bl alloc 1 st
          with hr
        have hrest : ∀ x ∈ rest, x ⊆ r.1.remaining := by
          intro x hx
          rw [i2.eq_sdiff]
          refine Finset.subset_sdiff.mpr ⟨hsub x (List.mem_cons_of_mem bl hx), ?_⟩
          refine disjoint_foldr_union fun g hg => ?_
          have hgbl : g ⊆ bl := i3.mem_subset g hg
          exact (((List.pairwise_cons.mp hdisj).1 x hx).mono_left hgbl).symm
        obtain ⟨n2, j1, j2, j3⟩ := ih r.2.2 r.1 hrest (List.pairwise_cons.mp hdisj).2
        refine ⟨n1 ++ n2, ?_, ?_, ?_⟩
        · rw [hstep, j1, i1, List.append_assoc]
        · rw [hstep]
          exact (List.map_append _ n1 n2) ▸ Carved.append i2 j2
        · intro f hf
          rcases List.mem_append.mp hf with hf | hf
          · exact i4 f hf
          · exact j3 f hf

theorem groupsLoop_spec (δ : ℚ) (frontBuf : Geo) (dims : ℕ → ℕ × ℕ)
    (dec : Geo → List Geo) (hdec : DecOK dec) :
    ∀ (targets : List Target) (st : PState),
    ∃ new : List Feature,
      (groupsLoop δ frontBuf dims dec targets st).parcels = st.parcels ++ new ∧
      Carved st.remaining (new.map (fun f => f.geom))
        (groupsLoop δ frontBuf dims dec targets st).remaining ∧
      ∀ f ∈ new, ∃ tgt ∈ targets, GroupParcel (groupCtx δ frontBuf dims tgt) f := by
  intro targets
  induction targets with
  | nil =>
      intro st
      exact ⟨[], by simp [groupsLoop], Carved.nil _, by simp⟩
  | cons tgt rest ih =>
      intro st
      have hsub : ∀ b ∈ dec st.remaining, b ⊆ st.remaining := by
        intro b hb
        have := (hdec st.remaining).1
        exact this ▸ subset_foldr_union hb
      obtain ⟨n1, i1, i2, i3⟩ :=
        blocksLoop_spec (groupCtx δ frontBuf dims tgt) (dec st.remaining) 0 st hsub
          (hdec st.remaining).2
      set r := blocksLoop (groupCtx δ frontBuf dims tgt) (dec st.remaining) 0 st with hr
      obtain ⟨n2, j1, j2, j3⟩ := ih r.1
      have hstep : groupsLoop δ frontBuf dims dec (tgt :: rest) st =
          groupsLoop δ frontBuf dims dec rest r.1 := by
        simp only [groupsLoop, hr]
      refine ⟨n1 ++ n2, ?_, ?_, ?_⟩
      · rw [hstep, j1, i1, List.append_assoc]
      · rw [hstep]
        exact (List.map_append _ n1 n2) ▸ Carved.append i2 j2
      · intro f hf
        rcases List.mem_append.mp hf with hf | hf
        · exact ⟨tgt, List.mem_cons_self tgt rest, i3 f hf⟩
        · obtain ⟨t, ht, hgp⟩ := j3 f hf
          exact ⟨t, List.mem_cons_of_mem tgt ht, hgp⟩

theorem computeTargets_entry_mem {A : ℚ} {prog : List ProgramEntry} {t : Target}
    (ht : t ∈ computeTargets A prog) : t.entry ∈ prog := by
  obtain ⟨p, hp, rfl⟩ := List.mem_map.mp ht
  exact hp

/-- Structure of any non-short-circuited `generate_parcels` run: the
output is the road features of the decomposed clipped network, then a
list of parcels carved sequentially out of `remaining_land`, then the
green residual if non-empty. -/
theorem generate_parcels_run (δ : ℚ) (c : RawConstraints) (rc : Option RoadConfig)
    (bg : Geo) (O : Oracles) (hdec : DecOK O.dec) (hbg : ¬ bg = ∅)
    (hrem : ¬ remainingLand0 bg O.rawRoad = ∅) :
    ∃ (new : List Feature) (rem : Geo),
      Carved (remainingLand0 bg O.rawRoad) (new.map (fun f => f.geom)) rem ∧
      (∀ f ∈ new, ∃ p ∈ c.parcel_program.getD [], ParcelOf δ p f) ∧
      generate_parcels δ c rc (some bg) O =
        (O.dec (fullRoadNetwork bg O.rawRoad)).filterMap
          (mkRoadFeature δ (roadWidths rc c).2.2)
        ++ new ++ (if rem = ∅ then [] else [mkGreen δ rem]) := by
  obtain ⟨new, h1, h2, h3⟩ :=
    groupsLoop_spec δ (O.frontageOf (fullRoadNetwork bg O.rawRoad)) O.dims O.dec hdec
      (computeTargets (garea δ (remainingLand0 bg O.rawRoad)) (c.parcel_program.getD []))
      { parcels := [], remaining := remainingLand0 bg O.rawRoad, t := 0 }
  refine ⟨new, _, by simpa using h2, ?_, ?_⟩
  · intro f hf
    obtain ⟨tgt, htgt, hgp⟩ := h3 f hf
    obtain ⟨hty, hsg, hrt, hmin, hmax, hsqm⟩ := hgp
    exact ⟨tgt.entry, computeTargets_entry_mem htgt, hty, hsg, hmin, hmax, hsqm⟩
  · simp only [generate_parcels, if_neg hbg, if_neg hrem]
    rw [h1]
    simp

theorem mem_filterMap_mkRoadFeature {δ s : ℚ} {l : List Geo} {f : Feature}
    (hf : f ∈ l.filterMap (mkRoadFeature δ s)) :
    f.ftype = "road" ∧ f.geom ∈ l := by
  obtain ⟨r, hr, hmk⟩ := List.mem_filterMap.mp hf
  by_cases h : garea δ r < 10
  · simp [mkRoadFeature, h] at hmk
  · simp only [mkRoadFeature, if_neg h, Option.some.injEq] at hmk
    subst hmk
    exact ⟨rfl, by simpa using hr⟩

theorem roadFeature_area_sum (δ s : ℚ) (l : List Geo) :
    ((l.filterMap (mkRoadFeature δ s)).map (fun f => garea δ f.geom)).sum
      + ((l.filter (fun r => garea δ r < 10)).map (garea δ)).sum
      = (l.map (garea δ)).sum := by
  induction l with
  | nil => simp
  | cons a l ih =>
      by_cases h : garea δ a < 10
      · have hmk : mkRoadFeature δ s a = none := by simp [mkRoadFeature, h]
        simp only [List.filterMap_cons, hmk, List.filter_cons, h, decide_True,
          if_true, List.map_cons, List.sum_cons]
        rw [← ih]
        ring
      · have hmk : mkRoadFeature δ s a = some
            { ftype := "road", geom := a,
              road_type := some
                (if ((max ((gbounds a).2.2.1 - (gbounds a).1)
                    ((gbounds a).2.2.2 - (gbounds a).2.1) : ℚ) * δ) > s * (3 / 2)
                  then "main" else "local"),
              area_sqm := pyRound2 (garea δ a) } := by
          simp [mkRoadFeature, h]
        simp only [List.filterMap_cons, hmk, List.filter_cons, h, decide_False,
          Bool.false_eq_true, if_false, List.map_cons, List.sum_cons]
        rw [← ih]
        ring

theorem pyRoundInt_bounds (q : ℚ) :
    q - 1 / 2 ≤ (pyRoundInt q : ℚ) ∧ (pyRoundInt q : ℚ) ≤ q + 1 / 2 := by
  have h1 : (⌊q⌋ : ℚ) ≤ q := Int.floor_le q
  have h2 : q < (⌊q⌋ : ℚ) + 1 := Int.lt_floor_add_one q
  unfold pyRoundInt
  split_ifs with ha hb hc <;> constructor <;> push_cast <;> linarith

theorem pyRound2_bounds (q : ℚ) :
    q - 1 / 200 ≤ pyRound2 q ∧ pyRound2 q ≤ q + 1 / 200 := by
  obtain ⟨h1, h2⟩ := pyRoundInt_bounds (100 * q)
  unfold pyRound2
  constructor <;> linarith

theorem erode_subset (g : Geo) (r δ : ℚ) : erode g r δ ⊆ g := Finset.filter_subset _ _

theorem decOK_single : DecOK decSingle := by
  intro g
  constructor
  · simp [decSingle]
  · simp [decSingle]

theorem garea_split (δ : ℚ) (bg raw : Geo) :
    garea δ bg = garea δ (fullRoadNetwork bg raw) + garea δ (remainingLand0 bg raw) := by
  have hsub : fullRoadNetwork bg raw ⊆ bg := Finset.inter_subset_right
  have hcard : bg.card = (fullRoadNetwork bg raw).card + (remainingLand0 bg raw).card := by
    have h1 : (remainingLand0 bg raw).card = bg.card - (fullRoadNetwork bg raw).card :=
      Finset.card_sdiff hsub
    have h2 := Finset.card_le_card hsub
    omega
  simp only [garea, hcard]
  push_cast
  ring

theorem max_one_pyTrunc_eq (q : ℚ) : max 1 (pyTrunc q) = max 1 ⌊q⌋ := by
  unfold pyTrunc
  split_ifs with h
  · have h1 : 0 ≤ ⌊-q⌋ := Int.floor_nonneg.mpr (by linarith)
    have h2 : ⌊q⌋ ≤ 0 := Int.floor_nonpos (le_of_lt h)
    rw [max_eq_left (by omega), max_eq_left (by omega)]
  · rfl

theorem chaikinStep_ne_nil {l : List Pt} (h : l ≠ []) : chaikinStep l ≠ [] := by
  match l, h with
  | a :: t, _ => simp [chaikinStep]

theorem chaikinStep_head {l : List Pt} (h : l ≠ []) :
    (chaikinStep l).head? = l.head? := by
  match l, h with
  | a :: t, _ => simp [chaikinStep]

theorem chaikinStep_getLast {l : List Pt} (h : l ≠ []) :
    (chaikinStep l).getLast? = l.getLast? := by
  have hlast : l.getLast? = some (l.getLast h) := List.getLast?_eq_getLast l h
  rw [chaikinStep, hlast]
  simp only [Option.toList_some]
  exact List.getLast?_concat _

theorem chaikin_iterate_endpoints (n : ℕ) :
    ∀ l : List Pt, l ≠ [] →
      (chaikinStep^[n] l).head? = l.head? ∧
      (chaikinStep^[n] l).getLast? = l.getLast? ∧ chaikinStep^[n] l ≠ [] := by
  induction n with
  | zero => exact fun l h => ⟨rfl, rfl, h⟩
  | succ n ih =>
      intro l h
      rw [Function.iterate_succ_apply]
      obtain ⟨h1, h2, h3⟩ := ih (chaikinStep l) (chaikinStep_ne_nil h)
      exact ⟨h1.trans (chaikinStep_head h), h2.trans (chaikinStep_getLast h), h3⟩

/-! ## Claim theorems -/

/-- Claim C10: for every coordinate list, `chaikin_smooth` returns a
polyline whose first and last points equal the input's first and last
points, for any number of iterations; and for every input with fewer
than three points it returns the input unchanged. -/
theorem chaikin_smooth_endpoints (coords : List Pt) (iterations : ℕ) :
    (chaikin_smooth coords iterations).head? = coords.head? ∧
    (chaikin_smooth coords iterations).getLast? = coords.getLast? ∧
    (coords.length < 3 → chaikin_smooth coords iterations = coords) := by
  by_cases h : coords.length < 3
  · refine ⟨?_, ?_, fun _ => ?_⟩ <;> simp [chaikin_smooth, h]
  · have hne : coords ≠ [] := by
      intro he
      rw [he] at h
      simp at h
    obtain ⟨h1, h2, _⟩ := chaikin_iterate_endpoints iterations coords hne
    unfold chaikin_smooth
    rw [if_neg h]
    exact ⟨h1, h2, fun hc => absurd hc h⟩

/-- Witness for C10 at concrete inputs: a two-point list is returned
unchanged, and a three-point list keeps its first point. -/
theorem chaikin_smooth_endpoints_witness :
    chaikin_smooth [((0 : ℚ), (0 : ℚ)), ((5 : ℚ), (1 : ℚ))] 4 =
      [((0 : ℚ), (0 : ℚ)), ((5 : ℚ), (1 : ℚ))] ∧
    (chaikin_smooth [((0 : ℚ), (0 : ℚ)), ((2 : ℚ), (3 : ℚ)), ((4 : ℚ), (0 : ℚ))] 2).head? =
      some ((0 : ℚ), (0 : ℚ)) :=
  ⟨(chaikin_smooth_endpoints _ 4).2.2 (by decide),
    by rw [(chaikin_smooth_endpoints _ 2).1]; rfl⟩

/-- Claim C6: `generate_buildable_area` raises (returns an error) if and
only if the loaded feature set contains no feature of type `boundary`;
when a boundary exists it returns normally, even when the derived
buildable polygon is empty. -/
theorem buildable_area_error_iff (δ : ℚ) (gdf : List InFeature) (c : RawConstraints) :
    (∃ e, generate_buildable_area δ gdf c = .error e) ↔
      gdf.filter (fun f => f.ftype = "boundary") = [] := by
  unfold generate_buildable_area
  by_cases h : (gdf.filter (fun f => f.ftype = "boundary")).isEmpty
  · rw [if_pos h]
    simp only [List.isEmpty_iff] at h
    exact ⟨fun _ => h, fun _ => ⟨_, rfl⟩⟩
  · rw [if_neg h]
    constructor
    · rintro ⟨e, he⟩
      exact absurd he (by simp)
    · intro hnil
      exact absurd (List.isEmpty_iff.mpr hnil) h

/-- Witness for C6: an input with no boundary feature makes
`generate_buildable_area` return an error. -/
theorem buildable_area_error_iff_witness :
    ∃ e, generate_buildable_area 1 ([] : List InFeature) {} = Except.error e :=
  (buildable_area_error_iff 1 [] {}).mpr rfl

/-- Claim C7: if the buildable geometry passed to `generate_parcels` is
`None` or empty, or if subtracting the road network leaves no remaining
land, `generate_parcels` returns an empty feature list (and, being a
total function here, raises nothing). -/
theorem generate_parcels_degenerate_empty (δ : ℚ) (c : RawConstraints)
    (rc : Option RoadConfig) (ob : Option Geo) (O : Oracles)
    (h : ob = none ∨ ob = some ∅ ∨
      ∃ bg, ob = some bg ∧ remainingLand0 bg O.rawRoad = ∅) :
    generate_parcels δ c rc ob O = [] := by
  rcases h with rfl | rfl | ⟨bg, rfl, hrem⟩
  · rfl
  · simp [generate_parcels]
  · by_cases hbg : bg = ∅
    · simp [generate_parcels, hbg]
    · simp [generate_parcels, hbg, hrem]

/-- Witness for C7: the all-obstacle site derives an empty buildable
area, and `generate_parcels` on that empty geometry returns `[]`. -/
theorem generate_parcels_degenerate_empty_witness :
    (generate_buildable_area 1 gdfAllObstacle consAllObstacle).toOption.map
        (fun r => r.raw_geom) = some ∅ ∧
    generate_parcels 1 consAllObstacle none (some ∅) oraclesPartition = [] :=
  ⟨by decide,
    generate_parcels_degenerate_empty 1 consAllObstacle none (some ∅) oraclesPartition
      (Or.inr (Or.inl rfl))⟩

/-- Claim C8: `generate_all_variations` returns exactly three records
named `High_Density`, `Balanced`, `Premium` (in that order), and each
record's status is `"success"` or `"error"` according to its own
pipeline outcome alone — a failure in one variation never affects the
others. -/
theorem variations_three_and_isolated {α : Type}
    (pipeline : VariationConfig → Except String α) :
    (generate_all_variations pipeline).length = 3 ∧
    (generate_all_variations pipeline).map (fun v => v.name) =
      ["High_Density", "Balanced", "Premium"] ∧
    (generate_all_variations pipeline).map (fun v => v.status) =
      [statusOf (pipeline highDensityConfig), statusOf (pipeline balancedConfig),
        statusOf (pipeline premiumConfig)] := by
  refine ⟨?_, ?_, ?_⟩ <;>
    · rcases h1 : pipeline highDensityConfig with e1 | p1 <;>
        rcases h2 : pipeline balancedConfig with e2 | p2 <;>
          rcases h3 : pipeline premiumConfig with e3 | p3 <;>
            simp [generate_all_variations, generateVariation, statusOf, h1, h2, h3]

/-- Witness for C8: a pipeline that fails exactly on the premium
configuration yields an error record for the premium variation only. -/
theorem variations_three_and_isolated_witness :
    (generate_all_variations (fun cfg => if cfg.vertical_spacing = 290
        then (Except.error "e" : Except String ℕ) else Except.ok 0)).map
      (fun v => v.status) = ["success", "success", "error"] := by
  rw [(variations_three_and_isolated (fun cfg => if cfg.vertical_spacing = 290
    then (Except.error "e" : Except String ℕ) else Except.ok 0)).2.2]
  decide

/-- Claim C5: for every size-group entry of the parcel program,
`generate_parcels` computes its target parcel count as
`max(1, floor(target_percent * A / ((min_area + max_area) / 2)))` where
`A` is the area of the land remaining after the road network has been
subtracted from the buildable area; in particular every group's target
count is at least 1. -/
theorem parcel_target_count_formula (δ : ℚ) (bg raw : Geo)
    (prog : List ProgramEntry) (p : ProgramEntry) (hp : p ∈ prog)
    (havg : 0 < p.min_area + p.max_area) :
    ∃ t ∈ computeTargets (garea δ (remainingLand0 bg raw)) prog,
      t.entry = p ∧
      (t.target_count : ℤ) =
        max 1 ⌊p.target_percent * garea δ (remainingLand0 bg raw) /
          ((p.min_area + p.max_area) / 2)⌋ ∧
      1 ≤ t.target_count := by
  refine ⟨_, List.mem_map_of_mem _ hp, rfl, ?_, ?_⟩
  · show ((max 1 (pyTrunc (garea δ (remainingLand0 bg raw) * p.target_percent /
        ((p.min_area + p.max_area) / 2)))).toNat : ℤ) = _
    rw [Int.toNat_of_nonneg (le_trans zero_le_one (le_max_left _ _)),
      max_one_pyTrunc_eq, mul_comm (garea δ (remainingLand0 bg raw)) p.target_percent]
  · show 1 ≤ (max 1 (pyTrunc (garea δ (remainingLand0 bg raw) * p.target_percent /
        ((p.min_area + p.max_area) / 2)))).toNat
    have := le_max_left 1 (pyTrunc (garea δ (remainingLand0 bg raw) * p.target_percent /
        ((p.min_area + p.max_area) / 2)))
    omega

/-- Witness for C5 at a concrete program and geometry. -/
theorem parcel_target_count_formula_witness :
    ∃ t ∈ computeTargets (garea 1 (remainingLand0 (pbox 0 0 2 2) ∅)) [entryMicro],
      t.entry = entryMicro ∧
      (t.target_count : ℤ) =
        max 1 ⌊entryMicro.target_percent * garea 1 (remainingLand0 (pbox 0 0 2 2) ∅) /
          ((entryMicro.min_area + entryMicro.max_area) / 2)⌋ ∧
      1 ≤ t.target_count :=
  parcel_target_count_formula 1 (pbox 0 0 2 2) ∅ [entryMicro] entryMicro
    (List.mem_singleton.mpr rfl) (by norm_num [entryMicro])

/-- Claim C9 counterexample: `generate_parcels` called without a
`road_config` on a constraints file with no road-width keys falls back
to `main_road_width_m = 20.0` and `local_road_width_m = 10.0`
(`subdivision.py` lines 113–114), not the `12.0`/`8.0` defaults the
claim states. -/
theorem road_width_default_counterexample :
    roadWidths none {} = (20, 10, 150) ∧
    (roadWidths none {}).1 ≠ (12 : ℚ) ∧ (roadWidths none {}).2.1 ≠ (8 : ℚ) :=
  ⟨rfl, by norm_num [roadWidths], by norm_num [roadWidths]⟩

/-- Claim C9 amended: with absent keys, `generate_buildable_area` defaults
the setback to 5.0 and the obstacle buffer to 3.0, and the pydantic
`PlanningConstraints` model declares defaults 0.10/5.0/3.0/12.0/8.0;
but `generate_parcels` without a `road_config` falls back to 20.0/10.0
for the main/local road widths. -/
theorem constraint_defaults_amended (pid : String) (prog : List ProgramEntry)
    (c : RawConstraints) (δ : ℚ) (gdf : List InFeature) (res : BuildableResult)
    (hmain : c.main_road_width_m = none) (hlocal : c.local_road_width_m = none)
    (hsetb : c.setback_boundary_m = none) (hbuf : c.buffer_obstacle_m = none)
    (hres : generate_buildable_area δ gdf c = .ok res) :
    roadWidths none c = (20, 10, 150) ∧
    res.boundary_setback_m = 5 ∧ res.obstacle_buffer_m = 3 ∧
    ({ project_id := pid, parcel_program := prog } : PlanningConstraints).min_green_ratio
        = 1 / 10 ∧
    ({ project_id := pid, parcel_program := prog } : PlanningConstraints).setback_boundary_m
        = 5 ∧
    ({ project_id := pid, parcel_program := prog } : PlanningConstraints).buffer_obstacle_m
        = 3 ∧
    ({ project_id := pid, parcel_program := prog } : PlanningConstraints).main_road_width_m
        = 12 ∧
    ({ project_id := pid, parcel_program := prog } : PlanningConstraints).local_road_width_m
        = 8 := by
  have hfields : res.boundary_setback_m = 5 ∧ res.obstacle_buffer_m = 3 := by
    unfold generate_buildable_area at hres
    by_cases hb : (gdf.filter (fun f => f.ftype = "boundary")).isEmpty
    · rw [if_pos hb] at hres
      simp at hres
    · rw [if_neg hb] at hres
      rw [Except.ok.injEq] at hres
      rw [← hres]
      simp [hsetb, hbuf]
  exact ⟨by simp [roadWidths, hmain, hlocal], hfields.1, hfields.2, rfl, rfl, rfl, rfl, rfl⟩

theorem gbaOneCell : generate_buildable_area 1 gdfOneCell {} = .ok resOneCell := by
  have h0 : (gdfOneCell.filter (fun f => f.ftype = "boundary")).isEmpty = false := by decide
  have h1 : unionGeos ((gdfOneCell.filter (fun f => f.ftype = "boundary")).map
      (fun x => x.geom)) = pbox 0 0 1 1 := by decide
  have h2 : (gdfOneCell.filter (fun f => f.ftype = "obstacle")).isEmpty = true := by decide
  have h3 : (gdfOneCell.filter (fun f => f.ftype = "road")).isEmpty = true := by decide
  have h4 : erode (pbox 0 0 1 1) 5 1 = ∅ := by decide
  have h5 : (pbox 0 0 1 1).card = 1 := by decide
  have h6 : (5 : ℚ) > 0 := by norm_num
  simp only [generate_buildable_area, h0, h1, h2, h3, h4, Bool.false_eq_true, not_false_iff,
    Option.getD_none, if_pos h6, if_false, not_true, List.append_nil, List.nil_append,
    List.isEmpty_nil, if_true, ite_false, ite_true]
  rw [Except.ok.injEq]
  unfold resOneCell
  rw [BuildableResult.mk.injEq]
  refine ⟨rfl, ?_, ?_, rfl, rfl⟩
  · rw [garea, h5]
    norm_num
  · rw [garea, Finset.card_empty]
    norm_num

/-- Witness for C9 at a concrete constraints file with all keys absent. -/
theorem constraint_defaults_amended_witness :
    roadWidths none {} = (20, 10, 150) ∧ resOneCell.boundary_setback_m = 5 ∧
      resOneCell.obstacle_buffer_m = 3 ∧
      ({ project_id := "p", parcel_program := [] } : PlanningConstraints).main_road_width_m
        = 12 :=
  have h := constraint_defaults_amended "p" [] {} 1 gdfOneCell resOneCell rfl rfl rfl rfl
    gbaOneCell
  ⟨h.1, h.2.1, h.2.2.1, h.2.2.2.2.2.2.1⟩

/-- Claim C2: on valid input (a boundary present, non-negative setback and
buffers), the road network clipped inside `generate_parcels`
(`fullRoadNetwork`) is contained in the buildable area returned by
`generate_buildable_area`, which is contained in the site polygon. -/
theorem containment_road_buildable_site (δ : ℚ) (gdf : List InFeature)
    (c : RawConstraints) (raw : Geo) (res : BuildableResult)
    (hsetb : 0 ≤ c.setback_boundary_m.getD 5) (hbuf : 0 ≤ c.buffer_obstacle_m.getD 3)
    (hres : generate_buildable_area δ gdf c = .ok res) :
    fullRoadNetwork res.raw_geom raw ⊆ res.raw_geom ∧ res.raw_geom ⊆ siteOf gdf := by
  refine ⟨Finset.inter_subset_right, ?_⟩
  unfold generate_buildable_area at hres
  by_cases hb : (gdf.filter (fun f => f.ftype = "boundary")).isEmpty
  · rw [if_pos hb] at hres
    simp at hres
  · rw [if_neg hb] at hres
    rw [Except.ok.injEq] at hres
    rw [← hres]
    unfold siteOf
    dsimp only
    split_ifs <;>
      first
        | exact Finset.Subset.refl _
        | exact Finset.filter_subset _ _
        | exact Finset.sdiff_subset
        | exact Finset.sdiff_subset.trans (Finset.filter_subset _ _)

/-- Witness for C2 at the one-cell site: both containments hold for the
computed buildable result. -/
theorem containment_road_buildable_site_witness :
    0 ≤ (({} : RawConstraints).setback_boundary_m.getD 5) ∧
    fullRoadNetwork resOneCell.raw_geom (pbox 0 0 5 5) ⊆ resOneCell.raw_geom ∧
    resOneCell.raw_geom ⊆ siteOf gdfOneCell :=
  have h := containment_road_buildable_site 1 gdfOneCell {} (pbox 0 0 5 5) resOneCell
    (by norm_num) (by norm_num) gbaOneCell
  ⟨by norm_num, h.1, h.2⟩

/-- Claim C3: in every feature list returned by `generate_parcels`, no two
parcel features intersect with positive area (their cell sets are
disjoint), and no parcel feature intersects the clipped road network. -/
theorem parcels_no_overlap (δ : ℚ) (c : RawConstraints) (rc : Option RoadConfig)
    (bg : Geo) (O : Oracles) (hdec : DecOK O.dec) :
    ((generate_parcels δ c rc (some bg) O).filter
        (fun f => f.ftype = "parcel")).Pairwise (fun a b => Disjoint a.geom b.geom) ∧
    (∀ f ∈ generate_parcels δ c rc (some bg) O, f.ftype = "parcel" →
      Disjoint f.geom (fullRoadNetwork bg O.rawRoad)) := by
  by_cases hbg : bg = ∅
  · constructor
    · simp [generate_parcels, hbg]
    · intro f hf
      simp [generate_parcels, hbg] at hf
  · by_cases hrem : remainingLand0 bg O.rawRoad = ∅
    · constructor
      · simp [generate_parcels, hbg, hrem]
      · intro f hf
        simp [generate_parcels, hbg, hrem] at hf
    · obtain ⟨new, rem, hc, hprops, heq⟩ := generate_parcels_run δ c rc bg O hdec hbg hrem
      have hnewparcel : ∀ f ∈ new, f.ftype = "parcel" := by
        intro f hf
        obtain ⟨p, _, hty, _⟩ := hprops f hf
        exact hty
      have h1 : ((O.dec (fullRoadNetwork bg O.rawRoad)).filterMap
          (mkRoadFeature δ (roadWidths rc c).2.2)).filter
            (fun f => f.ftype = "parcel") = [] := by
        rw [List.filter_eq_nil]
        intro f hf
        have := (mem_filterMap_mkRoadFeature hf).1
        simp [this]
      have h2 : new.filter (fun f => f.ftype = "parcel") = new := by
        rw [List.filter_eq_self]
        intro f hf
        simp [hnewparcel f hf]
      have h3 : (if rem = ∅ then ([] : List Feature) else [mkGreen δ rem]).filter
          (fun f => f.ftype = "parcel") = [] := by
        split_ifs
        · rfl
        · simp [mkGreen]
      have hfilter : (generate_parcels δ c rc (some bg) O).filter
          (fun f => f.ftype = "parcel") = new := by
        rw [heq]
        simp only [List.filter_append, h1, h2, h3, List.nil_append, List.append_nil]
      constructor
      · rw [hfilter]
        exact List.pairwise_map.mp hc.pairwise
      · intro f hf hfty
        have hfnew : f ∈ new := by
          have hmem : f ∈ (generate_parcels δ c rc (some bg) O).filter
              (fun f => f.ftype = "parcel") := List.mem_filter.mpr ⟨hf, by simp [hfty]⟩
          rwa [hfilter] at hmem
        have hsub : f.geom ⊆ remainingLand0 bg O.rawRoad :=
          hc.mem_subset f.geom (List.mem_map_of_mem _ hfnew)
        exact Finset.sdiff_disjoint.mono_left hsub

/-- Witness for C3 at a concrete run with a nontrivial program. -/
theorem parcels_no_overlap_witness :
    DecOK oraclesMicro.dec ∧
    ((generate_parcels deltaMicro consMicro none (some bgMicro) oraclesMicro).filter
        (fun f => f.ftype = "parcel")).Pairwise (fun a b => Disjoint a.geom b.geom) :=
  ⟨decOK_single,
    (parcels_no_overlap deltaMicro consMicro none bgMicro oraclesMicro decOK_single).1⟩

/-- Claim C4 amended: every parcel feature's exact rectangle area lies in
`[min_area, max_area]` of the program entry named by its `size_group`;
the recorded `area_sqm` is that area rounded to two decimals, hence lies
within `[min_area - 0.005, max_area + 0.005]` (and can leave
`[min_area, max_area]` when the bounds are not multiples of 0.01). -/
theorem parcel_size_bounds_amended (δ : ℚ) (c : RawConstraints) (rc : Option RoadConfig)
    (bg : Geo) (O : Oracles) (hdec : DecOK O.dec) :
    ∀ f ∈ generate_parcels δ c rc (some bg) O, f.ftype = "parcel" →
      ∃ p ∈ c.parcel_program.getD [], f.size_group = some p.size_group ∧
        p.min_area ≤ garea δ f.geom ∧ garea δ f.geom ≤ p.max_area ∧
        f.area_sqm = pyRound2 (garea δ f.geom) ∧
        p.min_area - 1 / 200 ≤ f.area_sqm ∧ f.area_sqm ≤ p.max_area + 1 / 200 := by
  by_cases hbg : bg = ∅
  · intro f hf
    simp [generate_parcels, hbg] at hf
  · by_cases hrem : remainingLand0 bg O.rawRoad = ∅
    · intro f hf
      simp [generate_parcels, hbg, hrem] at hf
    · obtain ⟨new, rem, hc, hprops, heq⟩ := generate_parcels_run δ c rc bg O hdec hbg hrem
      intro f hf hfty
      rw [heq] at hf
      have hf3 : f ∈ (O.dec (fullRoadNetwork bg O.rawRoad)).filterMap
          (mkRoadFeature δ (roadWidths rc c).2.2) ∨ f ∈ new ∨
          f ∈ (if rem = ∅ then ([] : List Feature) else [mkGreen δ rem]) := by
        simpa [List.mem_append, or_assoc] using hf
      rcases hf3 with hf | hf | hf
      · exact absurd hfty (by simp [(mem_filterMap_mkRoadFeature hf).1])
      · obtain ⟨p, hp, hty, hsg, hmin, hmax, hsqm⟩ := hprops f hf
        obtain ⟨b1, b2⟩ := pyRound2_bounds (garea δ f.geom)
        exact ⟨p, hp, hsg, hmin, hmax, hsqm, by rw [hsqm]; linarith, by rw [hsqm]; linarith⟩
      · split_ifs at hf
        · cases hf
        · rw [List.mem_singleton] at hf
          subst hf
          exact absurd hfty (by simp [mkGreen])

theorem genPartitionRun :
    generate_parcels 1 consEmptyProgram none (some bgPartition) oraclesPartition =
      [mkGreen 1 (bgPartition \ pbox 0 0 3 3)] := by
  have hne : ¬ (bgPartition = ∅) := by decide
  have hfull : fullRoadNetwork bgPartition (pbox 0 0 3 3) = pbox 0 0 3 3 := by decide
  have hrem : remainingLand0 bgPartition (pbox 0 0 3 3) = bgPartition \ pbox 0 0 3 3 := by
    decide
  have hrne : ¬ (bgPartition \ pbox 0 0 3 3 = ∅) := by decide
  have hc9 : (pbox 0 0 3 3 : Geo).card = 9 := by decide
  have hnone : mkRoadFeature 1 (roadWidths none consEmptyProgram).2.2 (pbox 0 0 3 3)
      = none := by
    unfold mkRoadFeature
    rw [if_pos]
    simp only [garea]
    rw [hc9]
    norm_num
  have hpp : consEmptyProgram.parcel_program = some [] := rfl
  simp only [generate_parcels, oraclesPartition, decSingle, hpp, hfull, hrem,
    if_neg hne, if_neg hrne, hnone, List.filterMap_cons, List.filterMap_nil,
    Option.getD_some, computeTargets, List.map_nil, groupsLoop, List.nil_append,
    List.append_nil]

/-- Claim C1 counterexample: on a 12 sqm buildable area whose clipped road
network is a single 9 sqm component, the component is dropped (area
below the 10 sqm threshold), the feature list is the green residual
alone, and the recorded sums miss the road area by far more than the
1e-3 relative tolerance. -/
theorem partition_sum_counterexample :
    bgPartition ≠ ∅ ∧
    generate_parcels 1 consEmptyProgram none (some bgPartition) oraclesPartition ≠ [] ∧
    ((generate_parcels 1 consEmptyProgram none (some bgPartition) oraclesPartition).map
        (fun f => f.area_sqm)).sum = 3 ∧
    garea 1 bgPartition = 12 ∧
    ¬ (|((generate_parcels 1 consEmptyProgram none (some bgPartition)
          oraclesPartition).map (fun f => f.area_sqm)).sum - garea 1 bgPartition| ≤
        garea 1 bgPartition / 1000) := by
  have hcr : (bgPartition \ pbox 0 0 3 3).card = 3 := by decide
  have hcb : bgPartition.card = 12 := by decide
  have hsum : ((generate_parcels 1 consEmptyProgram none (some bgPartition)
      oraclesPartition).map (fun f => f.area_sqm)).sum = 3 := by
    rw [genPartitionRun]
    simp only [List.map_cons, List.map_nil, List.sum_cons, List.sum_nil, mkGreen, garea]
    rw [hcr]
    norm_num [pyRound2, pyRoundInt]
  have hga : garea 1 bgPartition = 12 := by
    simp only [garea]
    rw [hcb]
    norm_num
  refine ⟨by decide, ?_, hsum, hga, ?_⟩
  · rw [genPartitionRun]
    simp
  · rw [hsum, hga]
    rw [show |(3 : ℚ) - 12| = 9 by
      rw [abs_sub_comm, abs_of_nonneg (by norm_num : (0:ℚ) ≤ 12 - 3)]
      norm_num]
    norm_num

/-- Claim C1 amended: for every run that reaches the allocator, the sum of
the exact geometric areas of all emitted features (roads, parcels,
green), plus the total area of the clipped road network's components
that were discarded for being smaller than 10 sqm, equals the area of
the buildable polygon exactly.  (Recorded `area_sqm` values are these
areas rounded to two decimals.) -/
theorem partition_completeness_amended (δ : ℚ) (c : RawConstraints)
    (rc : Option RoadConfig) (bg : Geo) (O : Oracles) (hdec : DecOK O.dec)
    (hbg : ¬ bg = ∅) (hrem : ¬ remainingLand0 bg O.rawRoad = ∅) :
    ((generate_parcels δ c rc (some bg) O).map (fun f => garea δ f.geom)).sum +
      (((O.dec (fullRoadNetwork bg O.rawRoad)).filter
          (fun r => garea δ r < 10)).map (garea δ)).sum = garea δ bg := by
  obtain ⟨new, rem, hc, _, heq⟩ := generate_parcels_run δ c rc bg O hdec hbg hrem
  rw [heq]
  have hroadsum := roadFeature_area_sum δ (roadWidths rc c).2.2
    (O.dec (fullRoadNetwork bg O.rawRoad))
  have hcomp : ((O.dec (fullRoadNetwork bg O.rawRoad)).map (garea δ)).sum =
      garea δ (fullRoadNetwork bg O.rawRoad) := by
    rw [← garea_foldr_union δ (hdec (fullRoadNetwork bg O.rawRoad)).2,
      (hdec (fullRoadNetwork bg O.rawRoad)).1]
  have hparc := hc.garea_eq δ
  rw [List.map_map] at hparc
  have hparc2 : garea δ (remainingLand0 bg O.rawRoad) =
      (new.map (fun f => garea δ f.geom)).sum + garea δ rem := by
    rw [hparc]
    rfl
  have hgreen : ((if rem = ∅ then ([] : List Feature) else [mkGreen δ rem]).map
      (fun f => garea δ f.geom)).sum = garea δ rem := by
    split_ifs with h
    · simp [h, garea]
    · simp [mkGreen]
  have hsplit := garea_split δ bg O.rawRoad
  simp only [List.map_append, List.sum_append, hgreen]
  linarith

/-- Witness for C1 amended at the concrete 12 sqm run. -/
theorem partition_completeness_amended_witness :
    (¬ bgPartition = ∅) ∧
    ((generate_parcels 1 consEmptyProgram none (some bgPartition) oraclesPartition).map
        (fun f => garea 1 f.geom)).sum +
      (((oraclesPartition.dec (fullRoadNetwork bgPartition oraclesPartition.rawRoad)).filter
          (fun r => garea 1 r < 10)).map (garea 1)).sum = garea 1 bgPartition :=
  ⟨by decide, partition_completeness_amended 1 consEmptyProgram none bgPartition
      oraclesPartition decOK_single (by decide) (by decide)⟩

theorem genMicroRun :
    generate_parcels deltaMicro consMicro none (some bgMicro) oraclesMicro =
      [mkParcel deltaMicro "Micro" (pbox 0 0 1 10)] := by
  have hne : ¬ (bgMicro = ∅) := by decide
  have hfull : fullRoadNetwork bgMicro (pbox 0 10 1 10) = pbox 0 10 1 10 := by decide
  have hrem : remainingLand0 bgMicro (pbox 0 10 1 10) = pbox 0 0 1 10 := by decide
  have hrne : ¬ ((pbox 0 0 1 10 : Geo) = ∅) := by decide
  have hc10 : (pbox 0 0 1 10 : Geo).card = 10 := by decide
  have hcfull : (pbox 0 10 1 10 : Geo).card = 10 := by decide
  have hgarea : garea deltaMicro (pbox 0 0 1 10) = 1 / 250 := by
    simp only [garea, deltaMicro]
    rw [hc10]
    norm_num
  have hnone : mkRoadFeature deltaMicro (roadWidths none consMicro).2.2 (pbox 0 10 1 10)
      = none := by
    unfold mkRoadFeature
    rw [if_pos]
    simp only [garea, deltaMicro]
    rw [hcfull]
    norm_num
  have hpp : consMicro.parcel_program = some [entryMicro] := rfl
  have htc : (max 1 (pyTrunc (garea deltaMicro (pbox 0 0 1 10) * entryMicro.target_percent /
      ((entryMicro.min_area + entryMicro.max_area) / 2)))).toNat = 1 := by
    rw [hgarea]
    have h45 : (1 / 250 : ℚ) * entryMicro.target_percent /
        ((entryMicro.min_area + entryMicro.max_area) / 2) = 4 / 5 := by
      simp only [entryMicro]
      norm_num
    rw [h45]
    have hfl : pyTrunc (4 / 5 : ℚ) = 0 := by
      unfold pyTrunc
      rw [if_neg (by norm_num)]
      norm_num
    rw [hfl]
    decide
  have hts : computeTargets (garea deltaMicro (pbox 0 0 1 10)) [entryMicro] =
      [{ entry := entryMicro, target_count := 1 }] := by
    simp only [computeTargets, List.map_cons, List.map_nil, htc]
  have hsub : (pbox 0 0 1 10 : Geo) ⊆ pbox 0 0 1 10 := Finset.Subset.refl _
  have hfr : ¬ ((pbox 0 0 1 10 : Geo) ∩ dilate (pbox 0 10 1 10) 1 1 = ∅) := by decide
  have harea : entryMicro.min_area ≤ garea deltaMicro (pbox 0 0 1 10) ∧
      garea deltaMicro (pbox 0 0 1 10) ≤ entryMicro.max_area := by
    rw [hgarea]
    constructor <;> simp only [entryMicro] <;> norm_num
  have hsd : (pbox 0 0 1 10 : Geo) \ pbox 0 0 1 10 = ∅ := by decide
  have hgb : gbounds (pbox 0 0 1 10) = (0, 0, 1, 10) := by decide
  have hsg : entryMicro.size_group = "Micro" := rfl
  simp only [generate_parcels, oraclesMicro, decSingle, hpp, hfull, hrem, if_neg hne,
    if_neg hrne, hnone, List.filterMap_cons, List.filterMap_nil, Option.getD_some, hts,
    groupsLoop, groupCtx, blocksLoop, hgb, List.nil_append, List.append_nil]
  simp [pxLoop, pyLoop, hsub, hfr, harea.1, harea.2, hsd, hrne, hsg]

/-- Claim C4 counterexample: at cell side δ = 1/50 with program entry
`entryMicro` (`min_area = 0.004`, `max_area = 0.006`), the run accepts a
plot of exact area `0.004 ∈ [min_area, max_area]` but records
`area_sqm = round(0.004, 2) = 0.0`, which lies strictly below the
group's `min_area`. -/
theorem parcel_area_sqm_counterexample :
    (generate_parcels deltaMicro consMicro none (some bgMicro) oraclesMicro).map
        (fun f => (f.ftype, f.size_group, f.area_sqm)) =
      [("parcel", some "Micro", 0)] ∧
    entryMicro.min_area = 1 / 250 ∧ ¬ ((1 : ℚ) / 250 ≤ 0) := by
  have hc10 : (pbox 0 0 1 10 : Geo).card = 10 := by decide
  have hg : garea deltaMicro (pbox 0 0 1 10) = 1 / 250 := by
    simp only [garea, deltaMicro]
    rw [hc10]
    norm_num
  have hpr : pyRound2 (1 / 250) = 0 := by
    have h1 : (100 : ℚ) * (1 / 250) = 2 / 5 := by norm_num
    have h2 : ⌊(2 / 5 : ℚ)⌋ = 0 := by norm_num
    unfold pyRound2 pyRoundInt
    rw [h1, h2]
    norm_num
  refine ⟨?_, rfl, by norm_num⟩
  rw [genMicroRun]
  simp only [List.map_cons, List.map_nil, mkParcel, hg, hpr]

/-- Witness for C4 amended: in the concrete δ = 1/50 run, the emitted
parcel's exact area lies in its group's bounds and its `area_sqm` is
that area rounded. -/
theorem parcel_size_bounds_amended_witness :
    ∃ p ∈ consMicro.parcel_program.getD [],
      (mkParcel deltaMicro "Micro" (pbox 0 0 1 10)).size_group = some p.size_group ∧
      p.min_area ≤ garea deltaMicro (mkParcel deltaMicro "Micro" (pbox 0 0 1 10)).geom ∧
      garea deltaMicro (mkParcel deltaMicro "Micro" (pbox 0 0 1 10)).geom ≤ p.max_area ∧
      (mkParcel deltaMicro "Micro" (pbox 0 0 1 10)).area_sqm =
        pyRound2 (garea deltaMicro (mkParcel deltaMicro "Micro" (pbox 0 0 1 10)).geom) ∧
      p.min_area - 1 / 200 ≤ (mkParcel deltaMicro "Micro" (pbox 0 0 1 10)).area_sqm ∧
      (mkParcel deltaMicro "Micro" (pbox 0 0 1 10)).area_sqm ≤ p.max_area + 1 / 200 :=
  parcel_size_bounds_amended deltaMicro consMicro none bgMicro oraclesMicro decOK_single
    (mkParcel deltaMicro "Micro" (pbox 0 0 1 10)) (by rw [genMicroRun]; exact List.mem_singleton.mpr rfl) rfl

end EstateLayout
